import Mathlib

/-!
Verification of the PixelPet repository's model-response pipeline.

The repository ships several near-identical copies of the same application.
The definitions below are shallow embeddings, translated function by
function from the Python sources:

* `PixelPet.PB` — `pixel_banana_modular/pixel_banana/textclean.py` and
  `client.py` (the "simple" sanitizer and the chat client);
* `PixelPet.V41` — `pixel_banana_v4_1_modular/pixel_banana_modular/banana/textclean.py`
  (the extended sanitizer with alias tags, fenced blocks, bare-tag removal
  and truncation at an unterminated opening tag);
* `PixelPet.V2` — `PixelPet_full_patched_v2.py` (`LocalModelClient._post_chat`);
* `PixelPet.Weather` — `weather.py` (`TTLCache`, `WeatherClient.geocode`);
* `PixelPet.Banana` — `banana/banana/client.py` (`LocalModelClient.ensure_ready`).

Modelling conventions: Python strings are `String` (lists of unicode code
points, as in Python; slicing such as `txt[:400]` is `List.take` on
`String.data`); `time.time()` is an explicit `Int` parameter threaded
through each call; a `requests` call that may raise is an explicit outcome
value, and a function that lets an exception escape returns `Except`.
Case-insensitive regex matching is modelled by `Char.toLower`, which folds
ASCII letters exactly as Python's `re.IGNORECASE` does on the ASCII
patterns used here (exotic unicode case foldings such as the Kelvin sign
are out of scope); the one regex compiled without that flag, the speaker
label strip, is matched case-sensitively.  Python's `\s` is modelled by `Char.isWhitespace`
(space, tab, CR, LF; Python additionally folds `\f`, `\v` and rare
unicode spaces, none of which occur in the patterns or claims here), and
`\w` (used only for the `\b` boundary after a tag alias) by ASCII
alphanumerics plus underscore.
-/

namespace PixelPet

/-- Case folding used for `re.IGNORECASE` matching. -/
def lc (c : Char) : Char := c.toLower

/-- Embeds `\s` of the Python regexes. -/
def isSpaceChar (c : Char) : Bool := c.isWhitespace

/-- Embeds `\w`, used for the `\b` word boundary after a tag alias. -/
def isWordChar (c : Char) : Bool := c.isAlphanum || c = '_'

/-- Case-insensitive prefix test: does `s` start with the (lower-case)
pattern `pat`? -/
def isPrefCI : List Char → List Char → Bool
  | [], _ => true
  | _ :: _, [] => false
  | p :: ps, c :: cs => (lc c == p) && isPrefCI ps cs

/-- Leftmost case-insensitive occurrence of `pat` in `s`:
returns `(before, after)` with the occurrence itself dropped.  This is the
match step of `re.sub(pat, "", s)` for a literal pattern. -/
def splitCI (pat : List Char) : List Char → Option (List Char × List Char)
  | [] => none
  | c :: cs =>
    if isPrefCI pat (c :: cs) then some ([], (c :: cs).drop pat.length)
    else
      match splitCI pat cs with
      | some (p, q) => some (c :: p, q)
      | none => none

/-- Case-sensitive substring test (Python's `in` on `str`). -/
def subList (pat : List Char) : List Char → Bool
  | [] => pat.isEmpty
  | c :: cs => pat.isPrefixOf (c :: cs) || subList pat cs

/-- Embeds `line.rstrip()`. -/
def rstripL (l : List Char) : List Char := (l.reverse.dropWhile isSpaceChar).reverse

/-- Embeds `txt.strip()`. -/
def pyStripL (l : List Char) : List Char := rstripL (l.dropWhile isSpaceChar)

/-- Embeds `city.strip()` on strings. -/
def pyStripS (s : String) : String := String.mk (pyStripL s.data)

/-- One step of `str.splitlines`: the first line and, when a line break
was found, the remainder after the break (`\r\n`, `\r` and `\n`). -/
def breakLine : List Char → List Char × Option (List Char)
  | [] => ([], none)
  | '\r' :: '\n' :: rest => ([], some rest)
  | '\r' :: rest => ([], some rest)
  | '\n' :: rest => ([], some rest)
  | c :: cs =>
    let (l, r) := breakLine cs
    (c :: l, r)

/-- Embeds `txt.splitlines()` (fuelled; `fuel ≥ length` always holds at the call
site, and each recursive call strictly shrinks the text). -/
def splitLinesF : Nat → List Char → List (List Char)
  | 0, _ => []
  | _, [] => []
  | f + 1, s =>
    match breakLine s with
    | (line, none) => [line]
    | (line, some rest) => line :: splitLinesF f rest

def splitLines (s : List Char) : List (List Char) := splitLinesF (s.length + 1) s

/-- Embeds `"\n".join(line.rstrip() for line in txt.splitlines() if line.strip())`. -/
def lineCleanup (s : List Char) : List Char :=
  List.intercalate ['\n'] (((splitLines s).filter (fun l => !l.all isSpaceChar)).map rstripL)

/-- Try a list of pattern alternatives at the current position, in order;
first one whose prefix matches wins (used where the alternatives cannot
both match, e.g. `思考|推理|分析`). -/
def matchAlt (alts : List (List Char)) (s : List Char) : Option (List Char) :=
  match alts with
  | [] => none
  | a :: rest => if isPrefCI a s then some (s.drop a.length) else matchAlt rest s

/-- Embeds `\s*[:：]` after a matched keyword: the whitespace run then a colon
(half- or full-width); returns the text after the colon. -/
def colonWs (s : List Char) : Option (List Char) :=
  match s.dropWhile isSpaceChar with
  | c :: cs => if c = ':' || c = '：' then some cs else none
  | [] => none

/-- The alternatives of `_FINAL_MARK`:
`(?:最终答案|答案|结论|Final Answer|Answer)\s*[:：]`, in the source's order. -/
def markAlts : List (List Char) :=
  ["最终答案".data, "答案".data, "结论".data, "final answer".data, "answer".data]

/-- Try the final-mark alternatives at one position; on an alternative
whose trailing colon is missing, fall through to the next alternative
(regex alternation backtracking). -/
def tryMarkAlts : List (List Char) → List Char → Option (List Char)
  | [], _ => none
  | a :: rest, s =>
    if isPrefCI a s then
      match colonWs (s.drop a.length) with
      | some r => some r
      | none => tryMarkAlts rest s
    else tryMarkAlts rest s

/-- Embeds `_FINAL_MARK.search(txt)`: leftmost match; returns the text after
`m.end()`. -/
def findFinalMark : List Char → Option (List Char)
  | [] => none
  | c :: cs =>
    match tryMarkAlts markAlts (c :: cs) with
    | some r => some r
    | none => findFinalMark cs

/-- Embeds `m = _FINAL_MARK.search(txt); if m: txt = txt[m.end():]`. -/
def cutFinalMark (s : List Char) : List Char :=
  match findFinalMark s with
  | some r => r
  | none => s

/-- The keyword alternatives of `_THINK_BLOCK`: `思考|推理|分析`. -/
def kwList : List (List Char) := ["思考".data, "推理".data, "分析".data]

/-- Embeds `\n\s*\n` matched greedily at the head of `s`: consume the newline,
then the longest whitespace run ending in a second newline; returns the
remainder. -/
def blankLineAt : List Char → Option (List Char)
  | '\n' :: rest =>
    let run := rest.takeWhile isSpaceChar
    match (run.reverse.findIdx? (· = '\n')).map (fun i => run.length - 1 - i) with
    | some k => some (rest.drop (k + 1))
    | none => none
  | _ => none

/-- Embeds `$` (no `re.MULTILINE`): end of text, or just before one trailing
newline; returns the remainder (the unconsumed text). -/
def dollarAt : List Char → Option (List Char)
  | [] => some []
  | ['\n'] => some ['\n']
  | _ => none

/-- The non-greedy `.*?(?:\n\s*\n|$)` body of `_THINK_BLOCK`: scan for the
earliest position where a blank line (preferred) or `$` matches, and
return the text after the match. -/
def blockEnd : List Char → List Char
  | [] => []
  | c :: cs =>
    match blankLineAt (c :: cs) with
    | some r => r
    | none =>
      match dollarAt (c :: cs) with
      | some r => r
      | none => blockEnd cs

/-- Embeds `_THINK_BLOCK.sub("", txt)`:
`(?is)^\s*(?:思考|推理|分析)\s*[:：].*?(?:\n\s*\n|$)` — anchored at the start
(no `re.MULTILINE`), so at most one removal. -/
def thinkBlockCut (s : List Char) : List Char :=
  match matchAlt kwList (s.dropWhile isSpaceChar) with
  | none => s
  | some r =>
    match colonWs r with
    | none => s
    | some r2 => blockEnd r2

/-- The label alternatives of the trailing prefix strip: `答|助手|Assistant`.
This is the one sanitizer regex compiled without `re.IGNORECASE`, so the
alternatives are matched case-sensitively. -/
def labelAlts : List (List Char) := ["答".data, "助手".data, "Assistant".data]

/-- Case-sensitive variant of `matchAlt`, for the one pattern without the
`(?i)` flag. -/
def matchAltCS (alts : List (List Char)) (s : List Char) : Option (List Char) :=
  match alts with
  | [] => none
  | a :: rest => if a.isPrefixOf s then some (s.drop a.length) else matchAltCS rest s

/-- Embeds `re.sub(r"^(?:答|助手|Assistant)\s*[:：]\s*", "", txt)` (anchored, at
most one removal, no `IGNORECASE` flag). -/
def labelStrip (s : List Char) : List Char :=
  match matchAltCS labelAlts s with
  | none => s
  | some r =>
    match colonWs r with
    | none => s
    | some r2 => r2.dropWhile isSpaceChar

namespace PB

/-- Embeds `SOFT_STOPS` of `pixel_banana_modular/pixel_banana/textclean.py`. -/
def SOFT_STOPS : List String :=
  ["系统：", "用户：", "System:", "User:", "analysis:", "Analysis:"]

def thinkOpen : List Char := "<think>".data
def thinkClose : List Char := "</think>".data

/-- Embeds `_THINK_TAG.sub("", txt)` for `(?is)<think>.*?</think>`: repeatedly
drop the leftmost `<think>` together with everything up to the earliest
following `</think>`; if the leftmost opening has no closing after it, no
later opening has one either, so the text is unchanged.  Fuelled: the
text shrinks by 15 characters per removal, so `length + 1` fuel is ample. -/
def removeSpansF : Nat → List Char → List Char
  | 0, s => s
  | f + 1, s =>
    match splitCI thinkOpen s with
    | none => s
    | some (pre, rest) =>
      match splitCI thinkClose rest with
      | none => s
      | some (_, rest2) => pre ++ removeSpansF f rest2

def removeSpans (s : List Char) : List Char := removeSpansF (s.length + 1) s

/-- The whole pipeline of `strip_thinking` on the character list. -/
def stripData (l : List Char) : List Char :=
  (lineCleanup (labelStrip (pyStripL (cutFinalMark (thinkBlockCut (removeSpans l)))))).take 400

/-- Embeds `strip_thinking` of `pixel_banana_modular/pixel_banana/textclean.py`. -/
def strip_thinking (s : String) : String :=
  if s.data.isEmpty then "" else String.mk (stripData s.data)

end PB

namespace V41

/-- The backtick character (written numerically; it only ever occurs
inside the fence patterns). -/
def btChar : Char := Char.ofNat 96

/-- Embeds `MAX_OUTPUT_CHARS` of
`pixel_banana_v4_1_modular/pixel_banana_modular/banana/textclean.py`. -/
def MAX_OUTPUT_CHARS : Nat := 1200

/-- The alias alternation of `_THINK_TAGS`, in the source's order. -/
def tagAliases : List (List Char) :=
  ["think".data, "thinking".data, "thought".data, "analysis".data,
   "reasoning".data, "scratchpad".data, "assistant_thought".data]

/-- The fence-language alternation of `_TRIPLE_BACKTICK_THINK`. -/
def fenceAliases : List (List Char) :=
  ["think".data, "thinking".data, "thought".data, "analysis".data, "reasoning".data]

/-- The alias alternation of the bare open/close tag removal. -/
def bareAliases : List (List Char) :=
  ["think".data, "analysis".data, "assistant_thought".data, "scratchpad".data]

/-- The alias alternation of the unterminated-open-tag truncation. -/
def truncAliases : List (List Char) :=
  ["think".data, "assistant_thought".data, "analysis".data]

/-- Embeds `alias\b`: an alias alternative followed by a word boundary.  On a
boundary failure the next alternative is tried (`think` / `thinking`). -/
def matchAltWB (alts : List (List Char)) (s : List Char) : Option (List Char) :=
  match alts with
  | [] => none
  | a :: rest =>
    if isPrefCI a s then
      match s.drop a.length with
      | [] => some []
      | c :: cs => if isWordChar c then matchAltWB rest s else some (c :: cs)
    else matchAltWB rest s

/-- Embeds `[^>]*>`: everything up to and including the first `>`. -/
def gtScan : List Char → Option (List Char)
  | [] => none
  | c :: cs => if c = '>' then some cs else gtScan cs

/-- The opening half of `_THINK_TAGS`:
`<\s*(?:think|…|assistant_thought)\b[^>]*>` matched at the head of `s`;
returns the text after the `>`. -/
def matchOpenTag : List Char → Option (List Char)
  | '<' :: r =>
    match matchAltWB tagAliases (r.dropWhile isSpaceChar) with
    | none => none
    | some r2 => gtScan r2
  | _ => none

/-- Embeds `alias\s*>` with fall-through between alternatives. -/
def closeAfter (alts : List (List Char)) (s : List Char) : Option (List Char) :=
  match alts with
  | [] => none
  | a :: rest =>
    if isPrefCI a s then
      match (s.drop a.length).dropWhile isSpaceChar with
      | '>' :: r2 => some r2
      | _ => closeAfter rest s
    else closeAfter rest s

/-- The closing half of `_THINK_TAGS`: `</\s*(?:think|…)\s*>` matched at
the head of `s` (any alias closes any opener). -/
def matchCloseTag : List Char → Option (List Char)
  | '<' :: '/' :: r => closeAfter tagAliases (r.dropWhile isSpaceChar)
  | _ => none

/-- Leftmost position where `m` matches: returns the text before the
match and the remainder `m` produced. -/
def findAt (m : List Char → Option (List Char)) : List Char → Option (List Char × List Char)
  | [] => none
  | c :: cs =>
    match m (c :: cs) with
    | some r => some ([], r)
    | none =>
      match findAt m cs with
      | some (p, q) => some (c :: p, q)
      | none => none

/-- Embeds `_THINK_TAGS.sub("", txt)`: repeatedly remove from the leftmost
opening alias tag through the earliest following closing alias tag; if the
leftmost opening has no closing after it, no later opening has one either
(a later opening ends no earlier), so the text is unchanged. -/
def removeTagsF : Nat → List Char → List Char
  | 0, s => s
  | f + 1, s =>
    match findAt matchOpenTag s with
    | none => s
    | some (pre, afterOpen) =>
      match findAt matchCloseTag afterOpen with
      | none => s
      | some (_, afterClose) => pre ++ removeTagsF f afterClose

def removeTags (s : List Char) : List Char := removeTagsF (s.length + 1) s

/-- The opening of `_TRIPLE_BACKTICK_THINK`: ` ```alias ` (no `\b`, so
`think` also opens a `thinking` fence) matched at the head. -/
def fenceOpenAt (s : List Char) : Option (List Char) :=
  if isPrefCI [btChar, btChar, btChar] s then matchAlt fenceAliases (s.drop 3) else none

/-- The closing ` ``` ` of a fence, matched at the head. -/
def fenceCloseAt (s : List Char) : Option (List Char) :=
  if isPrefCI [btChar, btChar, btChar] s then some (s.drop 3) else none

/-- Embeds `_TRIPLE_BACKTICK_THINK.sub("", txt)`. -/
def removeFencesF : Nat → List Char → List Char
  | 0, s => s
  | f + 1, s =>
    match findAt fenceOpenAt s with
    | none => s
    | some (pre, r) =>
      match findAt fenceCloseAt r with
      | none => s
      | some (_, r2) => pre ++ removeFencesF f r2

def removeFences (s : List Char) : List Char := removeFencesF (s.length + 1) s

/-- Embeds `</?\s*(?:think|analysis|assistant_thought|scratchpad)\s*>` matched at
the head of `s` (a bare tag, optional slash, no attributes). -/
def tryBareTag : List Char → Option (List Char)
  | '<' :: r =>
    let r1 := match r with
      | '/' :: r' => r'
      | _ => r
    closeAfter bareAliases (r1.dropWhile isSpaceChar)
  | _ => none

/-- The global bare-tag removal (step 4 of the source): scan left to
right, removing each bare tag and continuing after it. -/
def removeBareF : Nat → List Char → List Char
  | 0, s => s
  | _, [] => []
  | f + 1, c :: cs =>
    match tryBareTag (c :: cs) with
    | some rest => removeBareF f rest
    | none => c :: removeBareF f cs

def removeBare (s : List Char) : List Char := removeBareF (s.length + 1) s

/-- Embeds `<\s*(?:think|assistant_thought|analysis)[^>]*>` matched at the head
(no `\b`: an attribute-bearing opening alias tag). -/
def openAttrAt (s : List Char) : Bool :=
  match s with
  | '<' :: r =>
    match matchAlt truncAliases (r.dropWhile isSpaceChar) with
    | none => false
    | some r2 => (gtScan r2).isSome
  | _ => false

/-- Embeds `m = re.search(...); if m: txt = txt[:m.start()]` — truncate at the
first remaining opening alias tag. -/
def truncAtOpen : List Char → List Char
  | [] => []
  | c :: cs => if openAttrAt (c :: cs) then [] else c :: truncAtOpen cs

/-- The whole pipeline of the v4.1 `strip_thinking` on the character list. -/
def stripData (l : List Char) : List Char :=
  (lineCleanup (labelStrip (pyStripL (cutFinalMark
    (truncAtOpen (removeBare (thinkBlockCut (removeFences (removeTags l))))))))).take MAX_OUTPUT_CHARS

/-- Embeds `strip_thinking` of
`pixel_banana_v4_1_modular/pixel_banana_modular/banana/textclean.py`. -/
def strip_thinking (s : String) : String :=
  if s.data.isEmpty then "" else String.mk (stripData s.data)

end V41

namespace PB

/-- A received HTTP chat response, as `_post_chat` reads it: `r.status_code`,
`r.text`, and the parsed JSON fields `(data.get("message") or {}).get("content", "")`
and `data.get("error")`. -/
structure ChatResp where
  status : Nat
  body : String
  content : String
  error : Option String

/-- Outcome of `requests.post`: either the request raised
(`ConnectionError`, `Timeout`, …) or a response arrived. -/
inductive NetOutcome where
  | transport
  | resp (r : ChatResp)

/-- Embeds `r.ok` of the `requests` library.  `ok` is computed through
`raise_for_status()`, which raises exactly for client errors
(`400 <= status < 500`) and server errors (`500 <= status < 600`); any
other deliverable status (1xx, 3xx, and 600–999) leaves `ok` true. -/
def statusOk (n : Nat) : Bool := n < 400 || 600 ≤ n

/-- Python truthiness of `data.get("error")`. -/
def errTruthy : Option String → Bool
  | some e => e ≠ ""
  | none => false

/-- Embeds `LocalModelClient._post_chat` of
`pixel_banana_modular/pixel_banana/client.py`.  The `requests.post` call is
not wrapped in `try/except`, so a transport failure escapes as an
exception (`Except.error`).  (A JSON parse failure on a 2xx response would
also escape; well-formed JSON is assumed in `ChatResp`.) -/
def post_chat : NetOutcome → Except Unit String
  | .transport => .error ()
  | .resp r =>
    if !statusOk r.status then
      .ok ("[HTTP " ++ toString r.status ++ "] " ++ String.mk (r.body.data.take 160))
    else if errTruthy r.error && (r.content == "") then
      .ok ("[本地模型错误] " ++ r.error.getD "")
    else
      .ok r.content

/-- The no-think instruction appended to the system prompt on attempt 1. -/
def NO_THINK : String := "不要输出思考、推理、过程或<think>标签；直接给答案，可分 1–3 句。"

/-- The stricter instruction appended for attempt 2. -/
def STRICT2 : String := " 严禁输出思考或任何标签，仅一句话答案。"

/-- Embeds `sys_prompt` as computed at the top of `ask`. -/
def sysPrompt (system : Option String) (noThink : Bool) : String :=
  let sp := system.getD ""
  if noThink then (if sp ≠ "" then sp ++ " " else "") ++ NO_THINK else sp

structure ChatMsg where
  role : String
  content : String
deriving DecidableEq

/-- Embeds `msgs`: optional system message followed by the user message. -/
def baseMsgs (prompt : String) (system : Option String) (noThink : Bool) : List ChatMsg :=
  (if sysPrompt system noThink ≠ "" then [⟨"system", sysPrompt system noThink⟩] else [])
    ++ [⟨"user", prompt⟩]

/-- The `options` dict of a chat request.  `temperature` is 0.6 in the
source; it is carried here in tenths to avoid floating point. -/
structure ChatOptions where
  num_predict : Nat
  temperatureTenths : Nat
  num_ctx : Option Nat
  stop : Option (List String)
deriving DecidableEq

structure ChatReq where
  messages : List ChatMsg
  options : ChatOptions
  keep_alive : Nat
deriving DecidableEq

/-- The request of attempt 1: no stop sequences. -/
def chatReq1 (prompt : String) (system : Option String) (noThink : Bool) : ChatReq :=
  ⟨baseMsgs prompt system noThink, ⟨256, 6, none, none⟩, 0⟩

/-- The request of attempt 2: strengthened system message (`msgs2[0] = …`
when `no_think`) and the soft stop list. -/
def chatReq2 (prompt : String) (system : Option String) (noThink : Bool) : ChatReq :=
  ⟨(if noThink then
      (baseMsgs prompt system noThink).set 0 ⟨"system", sysPrompt system noThink ++ STRICT2⟩
    else baseMsgs prompt system noThink),
   ⟨256, 6, none, some SOFT_STOPS⟩, 0⟩

/-- Embeds `LocalModelClient._fallback`. -/
def fallback (prompt : String) : String :=
  let p := pyStripS prompt
  if subList "你好".data p.data || subList "hello".data p.data || subList "hi".data p.data then
    "你好，我是像素香蕉。今天也要补充维生素C！"
  else if subList "天气".data p.data then
    "关于天气：我可以试着查一下，但现在先给你一缕想象中的阳光☀️"
  else if p.data.length < 10 then "收到~"
  else "我在这儿，慢慢说。"

/-- Embeds `LocalModelClient.ask` of `pixel_banana_modular/pixel_banana/client.py`.
`o1`, `o2` are the network outcomes the server produces for the first and
second chat request.  The returned list records the requests actually
issued (the second one is built, and `o2` consumed, only after attempt 1
has been received and sanitized to empty).  Exceptions from `_post_chat`
propagate: `ask` has no handler. -/
def ask (prompt : String) (system : Option String) (noThink : Bool)
    (o1 o2 : NetOutcome) : Except Unit (String × List ChatReq) :=
  match post_chat o1 with
  | .error e => .error e
  | .ok m1 =>
    let c1 := strip_thinking m1
    if c1 ≠ "" then .ok (c1, [chatReq1 prompt system noThink])
    else
      match post_chat o2 with
      | .error e => .error e
      | .ok m2 =>
        let c2 := strip_thinking m2
        if c2 ≠ "" then .ok (c2, [chatReq1 prompt system noThink, chatReq2 prompt system noThink])
        else .ok (fallback prompt, [chatReq1 prompt system noThink, chatReq2 prompt system noThink])

end PB

namespace V2

/-- Embeds `LocalModelClient._post_chat` of `PixelPet_full_patched_v2.py`: the
truncation is 200 characters, and a JSON parse failure on an ok response
yields the fixed diagnostic string (modelled by `parseOk = false`). -/
structure ChatResp where
  status : Nat
  body : String
  parseOk : Bool
  content : String
  error : Option String

def post_chat : ChatResp → String
  | r =>
    if !PB.statusOk r.status then
      "[HTTP " ++ toString r.status ++ "] " ++ String.mk (r.body.data.take 200)
    else if !r.parseOk then "[解析响应失败]"
    else if PB.errTruthy r.error && (r.content == "") then
      "[本地模型错误] " ++ r.error.getD ""
    else r.content

end V2

namespace Weather

/-- Embeds `CacheItem` of `weather.py`. -/
structure CacheItem (α : Type) where
  value : α
  expire_at : Int
deriving DecidableEq

/-- Embeds `TTLCache._store`: a Python dict in insertion order. -/
abbrev Store (α : Type) : Type := List (String × CacheItem α)

/-- Embeds `self._store.get(key)`. -/
def storeFind {α} (st : Store α) (k : String) : Option (CacheItem α) :=
  (st.find? (fun e => e.1 == k)).map (fun e => e.2)

/-- Embeds `self._store.pop(key, None)`: drop the entry of `k`. -/
def storeErase {α} (st : Store α) (k : String) : Store α :=
  st.eraseP (fun e => e.1 == k)

/-- Embeds `self._store[key] = item`: in-place update if the key is present
(keeping its position, as a Python dict does), append otherwise. -/
def storeAssign {α} (st : Store α) (k : String) (it : CacheItem α) : Store α :=
  if st.any (fun e => e.1 == k) then
    st.map (fun e => if e.1 == k then (k, it) else e)
  else st ++ [(k, it)]

/-- Embeds `TTLCache.get`: `None` on a missing key; an entry whose `expire_at`
has passed is popped and `None` returned; otherwise the value.  `now` is
the `time.time()` of the read. -/
def get {α} (st : Store α) (k : String) (now : Int) : Option α × Store α :=
  match storeFind st k with
  | none => (none, st)
  | some it =>
    if it.expire_at < now then (none, storeErase st k)
    else (some it.value, st)

/-- Embeds `TTLCache.set`: when the store is already at `max_size`, pop the
first-inserted entry (`next(iter(self._store))`), then insert with expiry
`now + ttl` (`ttl` defaulting to the cache's `ttl_seconds`).  (With
`max_size = 0` and an empty store the Python raises `StopIteration`; the
tail of `[]` is `[]` here, a case unreachable for `max_size ≥ 1`.) -/
def set {α} (st : Store α) (k : String) (v : α) (ttl : Option Int)
    (defaultTtl : Int) (maxSize : Nat) (now : Int) : Store α :=
  let st1 := if maxSize ≤ st.length then st.tail else st
  storeAssign st1 k ⟨v, now + ttl.getD defaultTtl⟩

/-- One `TTLCache` operation, with its `time.time()` value. -/
inductive CacheOp (α : Type) where
  | get (k : String) (now : Int)
  | set (k : String) (v : α) (ttl : Option Int) (now : Int)

/-- Run a sequence of cache operations. -/
def runOps {α} (defaultTtl : Int) (maxSize : Nat) : List (CacheOp α) → Store α → Store α
  | [], st => st
  | .get k now :: ops, st => runOps defaultTtl maxSize ops (get st k now).2
  | .set k v ttl now :: ops, st => runOps defaultTtl maxSize ops (set st k v ttl defaultTtl maxSize now)

/-- The first geocoding result, as `WeatherClient.geocode` reads it
(`item.get("name")`, …; an absent or null field is the empty string;
coordinates are modelled as integers — they are only stored, never
computed with). -/
structure GeoItem where
  name : String
  country : String
  lat : Int
  lon : Int
  timezone : String
deriving DecidableEq

/-- Outcome of the geocoding GET: a raise (transport error or non-2xx via
`raise_for_status`, both caught by the source), an empty `results` list,
or a first result. -/
inductive GeoNet where
  | err
  | empty
  | ok (item : GeoItem)

/-- The dict cached and returned by `geocode`. -/
structure GeoOut where
  name : String
  country : String
  lat : Int
  lon : Int
  timezone : String
deriving DecidableEq

/-- The 7-day TTL of `geo_cache`. -/
def GEO_TTL : Int := 7 * 24 * 3600

def mkGeoOut (city : String) (item : GeoItem) : GeoOut :=
  ⟨if item.name = "" then city else item.name, item.country, item.lat, item.lon,
   if item.timezone = "" then "auto" else item.timezone⟩

/-- Embeds `WeatherClient.geocode` of `weather.py`.  Returns the result, the
geo-cache after the call, and whether a network request was issued. -/
def geocode (lang city : String) (st : Store GeoOut) (now : Int) (net : GeoNet) :
    Option GeoOut × Store GeoOut × Bool :=
  if pyStripS city = "" then (none, st, false)
  else
    match get st ("geo:" ++ lang ++ ":" ++ pyStripS city) now with
    | (some v, st1) => (some v, st1, false)
    | (none, st1) =>
      match net with
      | .err => (none, st1, true)
      | .empty => (none, st1, true)
      | .ok item =>
        (some (mkGeoOut (pyStripS city) item),
         set st1 ("geo:" ++ lang ++ ":" ++ pyStripS city) (mkGeoOut (pyStripS city) item)
           none GEO_TTL 256 now, true)

end Weather

namespace Banana

/-- Embeds `model.split(":")[0]`. -/
def model_base (model : String) : String := String.mk (model.data.takeWhile (fun c => c ≠ ':'))

/-- Embeds `any(base_name in (m.get("name") or "") for m in tags)`. -/
def hasModel (names : List String) (model : String) : Bool :=
  names.any (fun n => subList (model_base model).data n.data)

/-- Environment of one `ensure_ready` call.  `reach n` is the result of
the `n`-th `reachable()` probe (each probe is wrapped in `try/except`, so
it is a plain `Bool`); `maxPolls` is the number of loop iterations the
45-second window allows; `launch` is the `subprocess.Popen` outcome
(caught, never used); `tags` is the step-2 model listing (its
`try/except` turns an error into "model not present"); `pull` is the
step-3 pull outcome (its `try/except: pass` discards it). -/
structure ReadyEnv where
  isDarwin : Bool
  launch : Except Unit Unit
  reach : Nat → Bool
  maxPolls : Nat
  tags : Except Unit (List String)
  pull : Except Unit Unit

/-- The `while not reachable() and time.time() - t0 < wait_sec` loop:
each iteration consumes one probe; returns the index of the next unused
probe. -/
def waitLoop (reach : Nat → Bool) : Nat → Nat → Nat
  | 0, i => i + 1
  | f + 1, i => if reach i then i + 1 else waitLoop reach f (i + 1)

/-- Result of `ensure_ready`, with the internal `have` flag and whether a
pull was attempted (the source returns only `result`). -/
structure ReadyOut where
  result : Bool
  haveModel : Bool
  pulled : Bool
deriving DecidableEq

/-- Embeds `LocalModelClient.ensure_ready` of `banana/banana/client.py`.  Probe 0
is the first `reachable()`; on macOS with probe 0 false the launch is
attempted (outcome ignored) and the wait loop polls; then one more
`reachable()` decides the returned flag.  The step-2 listing and step-3
pull run only when that flag is true and never change it. -/
def ensure_ready (model : String) (e : ReadyEnv) : ReadyOut :=
  let j := if !e.reach 0 && e.isDarwin then waitLoop e.reach e.maxPolls 1 else 1
  if !e.reach j then ⟨false, false, false⟩
  else
    let hv := match e.tags with
      | .error _ => false
      | .ok names => hasModel names model
    ⟨true, hv, !hv⟩

end Banana

/-! ### Helper lemmas -/

theorem isPrefCI_nil (s : List Char) : isPrefCI [] s = true := rfl

theorem isPrefCI_cons_false {p : Char} {ps : List Char} {c : Char} {cs : List Char}
    (h : lc c ≠ p) : isPrefCI (p :: ps) (c :: cs) = false := by
  simp [isPrefCI, h]

theorem splitCI_cons (pat : List Char) (c : Char) (cs : List Char) :
    splitCI pat (c :: cs) =
      if isPrefCI pat (c :: cs) then some ([], (c :: cs).drop pat.length)
      else
        match splitCI pat cs with
        | some (p, q) => some (c :: p, q)
        | none => none := rfl

theorem splitCI_length {pat : List Char} (hp : pat ≠ []) :
    ∀ {s p q : List Char}, splitCI pat s = some (p, q) → q.length < s.length := by
  intro s
  induction s with
  | nil => intro p q h; simp [splitCI] at h
  | cons c cs ih =>
    intro p q h
    rw [splitCI_cons] at h
    split at h
    · simp only [Option.some.injEq, Prod.mk.injEq] at h
      obtain ⟨-, hq⟩ := h
      subst hq
      have hlen : 0 < pat.length := List.length_pos.mpr hp
      simp only [List.length_drop, List.length_cons]
      omega
    · cases hsp : splitCI pat cs with
      | none => rw [hsp] at h; exact absurd h (by simp)
      | some pq =>
        obtain ⟨p', q'⟩ := pq
        rw [hsp] at h
        simp only [Option.some.injEq, Prod.mk.injEq] at h
        obtain ⟨-, hq⟩ := h
        subst hq
        have := ih hsp
        simp only [List.length_cons]
        omega

theorem splitCI_append_of_no {p : Char} {ps : List Char} (a s : List Char)
    (h : ∀ c ∈ a, lc c ≠ p) :
    splitCI (p :: ps) (a ++ s) =
      (splitCI (p :: ps) s).map (fun pq => (a ++ pq.1, pq.2)) := by
  induction a with
  | nil =>
    simp only [List.nil_append]
    cases splitCI (p :: ps) s with
    | none => rfl
    | some pq => cases pq; rfl
  | cons c cs ih =>
    have hc : lc c ≠ p := h c (List.mem_cons_self c cs)
    have hrest : ∀ x ∈ cs, lc x ≠ p := fun x hx => h x (List.mem_cons_of_mem c hx)
    simp only [List.cons_append]
    rw [splitCI_cons, isPrefCI_cons_false hc]
    simp only [Bool.false_eq_true, if_false]
    rw [ih hrest]
    cases splitCI (p :: ps) s with
    | none => rfl
    | some pq => cases pq; rfl

end PixelPet

namespace PixelPet.PB

theorem thinkOpen_cons : thinkOpen = '<' :: "think>".data := rfl

theorem thinkClose_cons : thinkClose = '<' :: "/think>".data := rfl

theorem splitCI_thinkOpen_self (x : List Char) :
    splitCI thinkOpen (thinkOpen ++ x) = some ([], x) := by
  have hpre : isPrefCI thinkOpen (thinkOpen ++ x) = true := by
    simp only [thinkOpen, isPrefCI, lc, List.cons_append, List.nil_append, isPrefCI_nil]
    decide
  show splitCI thinkOpen ('<' :: ("think>".data ++ x)) = some ([], x)
  unfold splitCI
  rw [show ('<' :: ("think>".data ++ x)) = thinkOpen ++ x from rfl, hpre]
  simp only [if_true]
  rw [show thinkOpen.length = thinkOpen.length from rfl, List.drop_left]

theorem splitCI_thinkClose_self (x : List Char) :
    splitCI thinkClose (thinkClose ++ x) = some ([], x) := by
  have hpre : isPrefCI thinkClose (thinkClose ++ x) = true := by
    simp only [thinkClose, isPrefCI, lc, List.cons_append, List.nil_append, isPrefCI_nil]
    decide
  show splitCI thinkClose ('<' :: ("/think>".data ++ x)) = some ([], x)
  unfold splitCI
  rw [show ('<' :: ("/think>".data ++ x)) = thinkClose ++ x from rfl, hpre]
  simp only [if_true]
  rw [List.drop_left]

theorem removeSpansF_append_of_no (f : Nat) (a c : List Char)
    (h : ∀ ch ∈ a, lc ch ≠ '<') :
    removeSpansF f (a ++ c) = a ++ removeSpansF f c := by
  cases f with
  | zero => rfl
  | succ f =>
    simp only [removeSpansF]
    rw [thinkOpen_cons, splitCI_append_of_no a c h, ← thinkOpen_cons]
    cases hsp : splitCI thinkOpen c with
    | none => rfl
    | some pq =>
      obtain ⟨p, q⟩ := pq
      simp only [Option.map_some']
      cases hsp2 : splitCI thinkClose q with
      | none => rfl
      | some pq2 =>
        obtain ⟨x, q2⟩ := pq2
        simp only [List.append_assoc]

theorem removeSpansF_stable : ∀ f1 f2 s, s.length < f1 → s.length < f2 →
    removeSpansF f1 s = removeSpansF f2 s := by
  intro f1
  induction f1 with
  | zero => intro f2 s h1 _; omega
  | succ f ih =>
    intro f2 s h1 h2
    cases f2 with
    | zero => omega
    | succ f2' =>
      simp only [removeSpansF]
      cases hsp : splitCI thinkOpen s with
      | none => rfl
      | some pq =>
        obtain ⟨p, q⟩ := pq
        cases hsp2 : splitCI thinkClose q with
        | none => simp only [hsp2]
        | some pq2 =>
          obtain ⟨x, q2⟩ := pq2
          have hq : q.length < s.length := splitCI_length (by decide) hsp
          have hq2 : q2.length < q.length := splitCI_length (by decide) hsp2
          simp only [hsp2]
          rw [ih f2' q2 (by omega) (by omega)]

/-- Removal of one explicit well-formed think span, provided the text to
its left and its body contain no `<` (so the explicit tags are the ones
the regex engine finds). -/
theorem removeSpans_removes_span (a b c : List Char)
    (ha : ∀ ch ∈ a, lc ch ≠ '<') (hb : ∀ ch ∈ b, lc ch ≠ '<') :
    removeSpans (a ++ thinkOpen ++ b ++ thinkClose ++ c) = removeSpans (a ++ c) := by
  have e1 : splitCI thinkOpen (a ++ (thinkOpen ++ (b ++ (thinkClose ++ c)))) =
      some (a, b ++ (thinkClose ++ c)) := by
    rw [thinkOpen_cons, splitCI_append_of_no a _ ha, ← thinkOpen_cons,
      splitCI_thinkOpen_self]
    simp
  have e2 : splitCI thinkClose (b ++ (thinkClose ++ c)) = some (b, c) := by
    rw [thinkClose_cons, splitCI_append_of_no b _ hb, ← thinkClose_cons,
      splitCI_thinkClose_self]
    simp
  unfold removeSpans
  have hassoc : a ++ thinkOpen ++ b ++ thinkClose ++ c =
      a ++ (thinkOpen ++ (b ++ (thinkClose ++ c))) := by
    simp [List.append_assoc]
  rw [hassoc]
  have hlen : (a ++ (thinkOpen ++ (b ++ (thinkClose ++ c)))).length =
      a.length + b.length + c.length + 15 := by
    simp [List.length_append, thinkOpen, thinkClose]
    omega
  rw [show removeSpansF ((a ++ (thinkOpen ++ (b ++ (thinkClose ++ c)))).length + 1)
        (a ++ (thinkOpen ++ (b ++ (thinkClose ++ c)))) =
      a ++ removeSpansF ((a ++ (thinkOpen ++ (b ++ (thinkClose ++ c)))).length) c from by
    simp only [removeSpansF, e1, e2]]
  rw [removeSpansF_append_of_no _ a c ha]
  congr 1
  apply removeSpansF_stable
  · rw [hlen]; omega
  · simp only [List.length_append]; omega

theorem stripData_congr_removeSpans {l1 l2 : List Char}
    (h : removeSpans l1 = removeSpans l2) : stripData l1 = stripData l2 := by
  unfold stripData
  rw [h]

/-- Embeds `strip_thinking` without the (semantically redundant) empty-input
guard: the pipeline maps `""` to `""` anyway. -/
theorem strip_thinking_eq (s : String) : strip_thinking s = String.mk (stripData s.data) := by
  unfold strip_thinking
  by_cases he : s.data.isEmpty
  · have hd : s.data = [] := by simpa using he
    rw [if_pos he, hd]
    rfl
  · rw [if_neg he]

/-- A sanitizer output free of residual markup: the think-span scan, the
leading think-block cut, the final-answer cut, `strip()`, the speaker
label cut and the line cleanup are all no-ops on it, and it is inside the
400-character budget. -/
abbrev cleanOutput (y : List Char) : Prop :=
  removeSpans y = y ∧ thinkBlockCut y = y ∧ cutFinalMark y = y ∧
  pyStripL y = y ∧ labelStrip y = y ∧ lineCleanup y = y ∧ y.length ≤ 400

theorem strip_thinking_fix (y : String) (h : cleanOutput y.data) : strip_thinking y = y := by
  obtain ⟨h1, h2, h3, h4, h5, h6, h7⟩ := h
  rw [strip_thinking_eq]
  unfold stripData
  rw [h1, h2, h3, h4, h5, h6, List.take_of_length_le h7]

end PixelPet.PB

namespace PixelPet

/-! ### Claim theorems -/

/-- Claim C1 (code bug): the spec says a transport-level failure on either
chat attempt is caught inside `ask` and treated as an empty response, so
that `ask` never raises and an unreachable server yields a fallback
string.  In the code `requests.post` in `_post_chat` is not wrapped in any
`try/except`, and neither is the `_post_chat` call in `ask`: a
`ConnectionError`/`Timeout` on attempt 1 (or on attempt 2 after an empty
attempt 1) propagates to `ask`'s caller, and the fallback is never
reached. -/
theorem c1_ask_propagates_transport_failure :
    (∀ o2, PB.ask "你好" none true .transport o2 = Except.error ()) ∧
    PB.ask "你好" none true (.resp ⟨200, "", "", none⟩) .transport = Except.error () := by
  exact ⟨fun _ => rfl, rfl⟩

/-- Claim C2 (counterexample): the sanitizer is not idempotent.  On
`"Answer: A Answer: B"` the first pass cuts at the first final-answer
marker, leaving `"A Answer: B"`; a second pass cuts again at the marker
that survived, leaving `"B"`.  Both cited copies fail in the same way. -/
theorem c2_strip_not_idempotent :
    PB.strip_thinking (PB.strip_thinking "Answer: A Answer: B") ≠
      PB.strip_thinking "Answer: A Answer: B" ∧
    V41.strip_thinking (V41.strip_thinking "Answer: A Answer: B") ≠
      V41.strip_thinking "Answer: A Answer: B" := by
  exact ⟨by decide, by decide⟩

/-- Claim C2 (amended): `strip` is idempotent on every input whose output
is free of residual markup — no think-span match, no leading think block,
no surviving final-answer marker, no leading speaker label, already
whitespace-normalized and within the 400-character budget.  (The
counterexample shows idempotence fails precisely when a marker survives
the first pass.) -/
theorem c2_strip_idempotent_on_clean (x : String)
    (h : PB.cleanOutput (PB.strip_thinking x).data) :
    PB.strip_thinking (PB.strip_thinking x) = PB.strip_thinking x :=
  PB.strip_thinking_fix _ h

/-- Witness for C2: a concrete input whose sanitized output is clean, and
the idempotence instance obtained from the theorem. -/
theorem c2_strip_idempotent_on_clean_witness :
    PB.cleanOutput (PB.strip_thinking "<think>hmm</think>答：hello").data ∧
    PB.strip_thinking (PB.strip_thinking "<think>hmm</think>答：hello") =
      PB.strip_thinking "<think>hmm</think>答：hello" :=
  ⟨by decide, c2_strip_idempotent_on_clean "<think>hmm</think>答：hello" (by decide)⟩

/-- Claim C7 (counterexample): the spec's edge case says an unterminated
`<think>` at position 0 sanitizes to the empty string.  In the v4.1 copy
the bare-tag removal step deletes the dangling `<think>` before the
truncation step can see it, so the reasoning text after it is kept; in the
simple copy (`pixel_banana_modular`) there is no truncation step at all
and the dangling tag itself is kept. -/
theorem c7_unterminated_bare_tag_not_truncated :
    V41.strip_thinking "<think>reasoning forever" = "reasoning forever" ∧
    V41.strip_thinking "<think>reasoning forever" ≠ "" ∧
    PB.strip_thinking "<think>reasoning forever" = "<think>reasoning forever" := by
  exact ⟨by decide, by decide, by decide⟩

/-- Claim C7 (amended): in the v4.1 sanitizer, truncation at an
unterminated opening alias tag happens only for a tag that survives the
bare-tag removal, i.e. one carrying attributes such as `<think x>`: such
an input is truncated at the tag's start (empty output for a tag at
position 0), while a bare unterminated `<think>` is deleted and the text
after it kept. -/
theorem c7_truncation_at_attributed_tag :
    V41.strip_thinking "<think x>reasoning forever" = "" ∧
    V41.strip_thinking "before <think x>reasoning forever" = "before" ∧
    V41.strip_thinking "<think>reasoning forever" = "reasoning forever" := by
  exact ⟨by decide, by decide, by decide⟩

/-- Claim C8: an explicit well-formed `<think>…</think>` span is removed
in full — sanitizing `a ++ "<think>" ++ b ++ "</think>" ++ c` gives the
same output as sanitizing `a ++ c`, whenever `a` and the span body `b`
contain no `<` (so the explicit tags are the ones the regex engine
matches); and the spec's concrete example holds. -/
theorem c8_think_span_removed :
    (∀ a b c : String, (∀ ch ∈ a.data, lc ch ≠ '<') → (∀ ch ∈ b.data, lc ch ≠ '<') →
      PB.strip_thinking (a ++ "<think>" ++ b ++ "</think>" ++ c) =
        PB.strip_thinking (a ++ c)) ∧
    PB.strip_thinking "<think>planning...</think>答：你好" = "你好" := by
  constructor
  · intro a b c ha hb
    have hdata1 : (a ++ "<think>" ++ b ++ "</think>" ++ c).data =
        a.data ++ PB.thinkOpen ++ b.data ++ PB.thinkClose ++ c.data := by
      simp only [String.data_append]
      rfl
    have hdata2 : (a ++ c).data = a.data ++ c.data := String.data_append a c
    have hkey : PB.stripData ((a ++ "<think>" ++ b ++ "</think>" ++ c).data) =
        PB.stripData ((a ++ c).data) := by
      rw [hdata1, hdata2]
      exact PB.stripData_congr_removeSpans
        (PB.removeSpans_removes_span a.data b.data c.data ha hb)
    rw [PB.strip_thinking_eq, PB.strip_thinking_eq, hkey]
  · decide

/-- Witness for C8: the removal theorem applied at concrete strings. -/
theorem c8_think_span_removed_witness :
    PB.strip_thinking ("x" ++ "<think>" ++ "plan" ++ "</think>" ++ "y") =
      PB.strip_thinking ("x" ++ "y") :=
  c8_think_span_removed.1 "x" "plan" "y" (by decide) (by decide)

/-- Claim C9 (counterexample): the spec says every non-2xx response is
turned into a failure string.  `requests`' `r.ok` goes through
`raise_for_status()`, which raises only for `400 <= status < 600`: a 3xx
response — and any deliverable status in 600–999 — is treated as ok and
its parsed content returned verbatim, not a failure string. -/
theorem c9_3xx_not_failure_text :
    PB.post_chat (.resp ⟨300, "redirect body", "content", none⟩) = Except.ok "content" ∧
    V2.post_chat ⟨300, "redirect body", true, "content", none⟩ = "content" ∧
    PB.post_chat (.resp ⟨999, "odd status", "content", none⟩) = Except.ok "content" ∧
    V2.post_chat ⟨999, "odd status", true, "content", none⟩ = "content" ∧
    ("content" : String) ≠ "[HTTP 300] redirect body" := by
  exact ⟨rfl, rfl, rfl, rfl, by decide⟩

/-- Claim C9 (amended): for every chat response whose status makes `r.ok`
false — a client or server error status, `400 <= status < 600` —
`_post_chat` does not raise and returns the failure string with the
numeric status code and the body truncated to 160 characters (200 in the
`PixelPet_full_patched_v2` copy). -/
theorem c9_failure_string_on_error_status :
    (∀ r : PB.ChatResp, 400 ≤ r.status → r.status < 600 →
      PB.post_chat (.resp r) =
        Except.ok ("[HTTP " ++ toString r.status ++ "] " ++ String.mk (r.body.data.take 160)) ∧
      (String.mk (r.body.data.take 160)).length ≤ 160) ∧
    (∀ r : V2.ChatResp, 400 ≤ r.status → r.status < 600 →
      V2.post_chat r = "[HTTP " ++ toString r.status ++ "] " ++ String.mk (r.body.data.take 200) ∧
      (String.mk (r.body.data.take 200)).length ≤ 200) := by
  constructor
  · intro r h1 h2
    have hok : PB.statusOk r.status = false := by
      simp only [PB.statusOk, Bool.or_eq_false_iff, decide_eq_false_iff_not]
      omega
    constructor
    · simp [PB.post_chat, hok]
    · show (r.body.data.take 160).length ≤ 160
      rw [List.length_take]
      exact min_le_left _ _
  · intro r h1 h2
    have hok : PB.statusOk r.status = false := by
      simp only [PB.statusOk, Bool.or_eq_false_iff, decide_eq_false_iff_not]
      omega
    constructor
    · simp [V2.post_chat, hok]
    · show (r.body.data.take 200).length ≤ 200
      rw [List.length_take]
      exact min_le_left _ _

/-- Witness for C9 (amended): a concrete 500 response. -/
theorem c9_failure_string_on_error_status_witness :
    PB.post_chat (.resp ⟨500, "boom", "", none⟩) = Except.ok "[HTTP 500] boom" ∧
    V2.post_chat ⟨500, "boom", true, "", none⟩ = "[HTTP 500] boom" := by
  have h1 := c9_failure_string_on_error_status.1 ⟨500, "boom", "", none⟩ (by decide) (by decide)
  have h2 := c9_failure_string_on_error_status.2 ⟨500, "boom", true, "", none⟩ (by decide) (by decide)
  exact ⟨by rw [h1.1]; rfl, by rw [h2.1]; rfl⟩

/-- Claim C3: in one `ask` call, the second chat request exists only after
the first response has been received and sanitized to empty; in the
empty-then-nonempty scenario `ask` returns the attempt-2 sanitized text
with exactly the two requests, and only the second carries the soft stop
list.  A non-empty first attempt returns after exactly one request. -/
theorem c3_ask_second_attempt (p : String) (sys : Option String) (nt : Bool)
    (o1 o2 : PB.NetOutcome) :
    (∀ m1 m2, PB.post_chat o1 = .ok m1 → PB.strip_thinking m1 = "" →
      PB.post_chat o2 = .ok m2 → PB.strip_thinking m2 ≠ "" →
      PB.ask p sys nt o1 o2 =
        .ok (PB.strip_thinking m2, [PB.chatReq1 p sys nt, PB.chatReq2 p sys nt])) ∧
    (∀ m1, PB.post_chat o1 = .ok m1 → PB.strip_thinking m1 ≠ "" →
      PB.ask p sys nt o1 o2 = .ok (PB.strip_thinking m1, [PB.chatReq1 p sys nt])) ∧
    (PB.chatReq1 p sys nt).options.stop = none ∧
    (PB.chatReq2 p sys nt).options.stop = some PB.SOFT_STOPS := by
  refine ⟨?_, ?_, rfl, rfl⟩
  · intro m1 m2 h1 he h2 hne
    simp [PB.ask, h1, he, h2, hne]
  · intro m1 h1 hne
    simp [PB.ask, h1, hne]

/-- Witness for C3: empty content on attempt 1, a clean reply on attempt 2. -/
theorem c3_ask_second_attempt_witness :
    PB.ask "早" none true (.resp ⟨200, "", "<think>推理</think>", none⟩)
        (.resp ⟨200, "", "你好呀", none⟩) =
      .ok ("你好呀", [PB.chatReq1 "早" none true, PB.chatReq2 "早" none true]) := by
  have h := (c3_ask_second_attempt "早" none true
      (.resp ⟨200, "", "<think>推理</think>", none⟩) (.resp ⟨200, "", "你好呀", none⟩)).1
    "<think>推理</think>" "你好呀" rfl (by decide) rfl (by decide)
  rw [h]
  rfl

/-- Claim C4: with the server's reachability stable during the call,
`ensure_ready` returns exactly the reachability flag — `false` only when
the server stayed unreachable through every probe of the wait window, and
`true` as soon as it is reachable, regardless of the model listing, the
launch outcome and the pull outcome (second conjunct: the result does not
depend on those fields at all).  Every fallible step is an explicit
outcome value consumed without propagation, matching the source's
`try/except` wrappers, so the embedding is total: no exception escapes. -/
theorem c4_ensure_ready_reachability :
    (∀ (model : String) (e : Banana.ReadyEnv) (r : Bool), (∀ n, e.reach n = r) →
      (Banana.ensure_ready model e).result = r) ∧
    (∀ (model : String) (dar : Bool) (l1 l2 : Except Unit Unit) (reach : Nat → Bool)
      (mp : Nat) (t1 t2 : Except Unit (List String)) (p1 p2 : Except Unit Unit),
      (Banana.ensure_ready model ⟨dar, l1, reach, mp, t1, p1⟩).result =
      (Banana.ensure_ready model ⟨dar, l2, reach, mp, t2, p2⟩).result) := by
  constructor
  · intro model e r h
    cases r with
    | false => simp [Banana.ensure_ready, h]
    | true =>
      cases htags : e.tags with
      | error u => simp [Banana.ensure_ready, h, htags]
      | ok names => simp [Banana.ensure_ready, h, htags]
  · intro model dar l1 l2 reach mp t1 t2 p1 p2
    simp only [Banana.ensure_ready]
    cases hr2 : reach (if !reach 0 && dar then Banana.waitLoop reach mp 1 else 1) with
    | false => simp
    | true => cases t1 <;> cases t2 <;> simp

/-- Witness for C4: a permanently unreachable server yields `false`. -/
theorem c4_ensure_ready_reachability_witness :
    (Banana.ensure_ready "qwen:7b"
      ⟨true, .error (), (fun _ => false), 3, .error (), .error ()⟩).result = false :=
  c4_ensure_ready_reachability.1 "qwen:7b"
    ⟨true, .error (), (fun _ => false), 3, .error (), .error ()⟩ false (fun _ => rfl)

end PixelPet

namespace PixelPet.Weather

/-- After `self._store[key] = item`, looking the key up finds the item. -/
theorem storeFind_assign {α : Type} (st : Store α) (k : String) (it : CacheItem α) :
    storeFind (storeAssign st k it) k = some it := by
  unfold storeAssign
  by_cases hany : st.any (fun e => e.1 == k) = true
  · rw [if_pos hany]
    induction st with
    | nil => simp at hany
    | cons e es ih =>
      by_cases he : (e.1 == k) = true
      · simp only [List.map_cons, if_pos he]
        simp [storeFind, List.find?_cons]
      · have hef : (e.1 == k) = false := by
          revert he; cases (e.1 == k) <;> simp
        have hes : es.any (fun e => e.1 == k) = true := by
          simp only [List.any_cons, hef, Bool.false_or] at hany
          exact hany
        have hrec := ih hes
        simp only [List.map_cons, if_neg he]
        unfold storeFind at hrec ⊢
        rw [List.find?_cons]
        simp only [hef]
        exact hrec
  · rw [if_neg hany]
    have hnone : st.find? (fun e => e.1 == k) = none := by
      rw [List.find?_eq_none]
      intro x hx hpx
      exact hany (List.any_eq_true.mpr ⟨x, hx, hpx⟩)
    unfold storeFind
    rw [List.find?_append, hnone]
    simp [List.find?_cons]

/-- Keys absent from the association list are not found. -/
theorem storeFind_eq_none_of_not_mem {α : Type} (st : Store α) (k : String)
    (h : k ∉ st.map Prod.fst) : storeFind st k = none := by
  unfold storeFind
  rw [List.find?_eq_none.mpr]
  · rfl
  · intro x hx hpx
    exact h (List.mem_map.mpr ⟨x, hx, by simpa using (beq_iff_eq.mp hpx)⟩)

/-- Erasing a key from a store whose keys are distinct removes it for
good. -/
theorem storeFind_erase_of_nodup {α : Type} (st : Store α) (k : String)
    (hnd : (st.map Prod.fst).Nodup) : storeFind (storeErase st k) k = none := by
  induction st with
  | nil => rfl
  | cons e es ih =>
    simp only [List.map_cons, List.nodup_cons] at hnd
    obtain ⟨hk, hnd'⟩ := hnd
    unfold storeErase
    by_cases he : (e.1 == k) = true
    · rw [@List.eraseP_cons_of_pos _ e es (fun x => x.1 == k) he]
      have hek : e.1 = k := beq_iff_eq.mp he
      subst hek
      exact storeFind_eq_none_of_not_mem es e.1 hk
    · rw [@List.eraseP_cons_of_neg _ e es (fun x => x.1 == k) he]
      have hef : (e.1 == k) = false := by
        revert he; cases (e.1 == k) <;> simp
      have hrec := ih hnd'
      unfold storeErase at hrec
      unfold storeFind at hrec ⊢
      rw [List.find?_cons]
      simp only [hef]
      exact hrec

/-- Embeds `set` never grows the store past `max_size` (for `max_size ≥ 1`). -/
theorem set_length_le {α : Type} (st : Store α) (k : String) (v : α) (ttl : Option Int)
    (d : Int) (m : Nat) (now : Int) (hm : 1 ≤ m) (hst : st.length ≤ m) :
    (set st k v ttl d m now).length ≤ m := by
  unfold set storeAssign
  set st1 := if m ≤ st.length then st.tail else st with hst1
  have hlen1 : st1.length ≤ m - 1 ∨ (st1.length ≤ m ∧ st1.any (fun e => e.1 == k) = true ∨ st1.length < m) := by
    by_cases hc : m ≤ st.length
    · left
      rw [hst1, if_pos hc, List.length_tail]
      omega
    · right; right
      rw [hst1, if_neg hc]
      omega
  by_cases hany : st1.any (fun e => e.1 == k) = true
  · rw [if_pos hany, List.length_map]
    rcases hlen1 with h | h
    · omega
    · rcases h with ⟨h1, -⟩ | h1 <;> omega
  · rw [if_neg hany]
    rw [List.length_append]
    rcases hlen1 with h | h
    · simp; omega
    · rcases h with ⟨-, h1⟩ | h1
      · exact absurd h1 hany
      · simp; omega

/-- Embeds `get` never grows the store. -/
theorem get_length_le {α : Type} (st : Store α) (k : String) (now : Int) :
    (get st k now).2.length ≤ st.length := by
  unfold get
  cases storeFind st k with
  | none => simp
  | some it =>
    by_cases hexp : it.expire_at < now
    · simp only [hexp, if_pos]
      exact List.length_eraseP_le st
    · simp [hexp]

end PixelPet.Weather

namespace PixelPet

/-- Claim C5: a `TTLCache` read never returns a value whose expiry has
passed at read time; a read of an expired entry pops it from the store;
and a read right after `set(k, v, ttl)` at any time at which the ttl has
not yet elapsed returns `v`. -/
theorem c5_ttlcache_expiry :
    (∀ (α : Type) (st : Weather.Store α) (k : String) (now : Int) (v : α),
      (Weather.get st k now).1 = some v →
      ∃ it, Weather.storeFind st k = some it ∧ it.value = v ∧ ¬ it.expire_at < now) ∧
    (∀ (α : Type) (st : Weather.Store α) (k : String) (now : Int) (it : Weather.CacheItem α),
      Weather.storeFind st k = some it → it.expire_at < now →
      Weather.get st k now = (none, Weather.storeErase st k)) ∧
    (∀ (α : Type) (st : Weather.Store α) (k : String) (v : α) (ttl d : Int)
      (m : Nat) (t tr : Int), tr ≤ t + ttl →
      (Weather.get (Weather.set st k v (some ttl) d m t) k tr).1 = some v) := by
  refine ⟨?_, ?_, ?_⟩
  · intro α st k now v h
    unfold Weather.get at h
    cases hf : Weather.storeFind st k with
    | none => rw [hf] at h; simp at h
    | some it =>
      rw [hf] at h
      by_cases hexp : it.expire_at < now
      · simp [hexp] at h
      · simp only [hexp, if_neg, if_false] at h
        simp only [Option.some.injEq] at h
        exact ⟨it, rfl, h, hexp⟩
  · intro α st k now it hf hexp
    unfold Weather.get
    simp only [hf]
    rw [if_pos hexp]
  · intro α st k v ttl d m t tr h
    unfold Weather.get
    have hfind : Weather.storeFind (Weather.set st k v (some ttl) d m t) k =
        some ⟨v, t + ttl⟩ := by
      unfold Weather.set
      exact Weather.storeFind_assign _ k ⟨v, t + ttl⟩
    simp only [hfind]
    have hni : ¬ ((⟨v, t + ttl⟩ : Weather.CacheItem α).expire_at < tr) := by
      show ¬ (t + ttl < tr)
      omega
    rw [if_neg hni]

/-- Witness for C5: `set` then an in-ttl `get` on a concrete store. -/
theorem c5_ttlcache_expiry_witness :
    (Weather.get (Weather.set ([] : Weather.Store Nat) "k" 42 (some 100) 600 256 0)
      "k" 50).1 = some 42 :=
  c5_ttlcache_expiry.2.2 Nat [] "k" 42 100 600 256 0 50 (by omega)

/-- Claim C10: starting from an empty `TTLCache` with `max_size ≥ 1`, any
sequence of `get`/`set` operations leaves at most `max_size` entries: a
`set` that finds the store at (or beyond) `max_size` first evicts the
first-inserted entry before inserting. -/
theorem c10_store_bounded (α : Type) (d : Int) (m : Nat) (hm : 1 ≤ m) :
    (∀ ops : List (Weather.CacheOp α), (Weather.runOps d m ops []).length ≤ m) ∧
    (∀ (st : Weather.Store α) (k : String) (v : α) (ttl : Option Int) (now : Int),
      st.length ≤ m → (Weather.set st k v ttl d m now).length ≤ m) := by
  have hrun : ∀ (ops : List (Weather.CacheOp α)) (st : Weather.Store α),
      st.length ≤ m → (Weather.runOps d m ops st).length ≤ m := by
    intro ops
    induction ops with
    | nil => intro st h; exact h
    | cons op rest ih =>
      intro st h
      cases op with
      | get k now =>
        exact ih _ (le_trans (Weather.get_length_le st k now) h)
      | set k v ttl now =>
        exact ih _ (Weather.set_length_le st k v ttl d m now hm h)
  exact ⟨fun ops => hrun ops [] (by simp), fun st k v ttl now h =>
    Weather.set_length_le st k v ttl d m now hm h⟩

/-- Witness for C10: three inserts into a cache of capacity 2. -/
theorem c10_store_bounded_witness :
    (Weather.runOps (α := Nat) 600 2
      [.set "a" 1 none 0, .set "b" 2 none 1, .set "c" 3 none 2, .get "a" 3] []).length ≤ 2 :=
  (c10_store_bounded Nat 600 2 (by omega)).1
    [.set "a" 1 none 0, .set "b" 2 none 1, .set "c" 3 none 2, .get "a" 3]

end PixelPet

namespace PixelPet.Weather

/-- The cache key `geocode` builds: `f"geo:{lang}:{city}"` after the
city has been stripped. -/
def geoKey (lang city : String) : String := "geo:" ++ lang ++ ":" ++ pyStripS city

/-- A read that finds a live entry returns it and leaves the store as it
is. -/
theorem get_hit {α : Type} (st : Store α) (k : String) (it : CacheItem α) (now : Int)
    (hf : storeFind st k = some it) (hexp : ¬ it.expire_at < now) :
    get st k now = (some it.value, st) := by
  unfold get
  simp only [hf]
  rw [if_neg hexp]

/-- After the cache read of a missing key, the key is absent from the
store the read returns (either it was never there, or the read evicted
the expired entry), provided the store's keys are distinct. -/
theorem get_miss_find_none {α : Type} (st : Store α) (k : String) (now : Int)
    (hnd : (st.map Prod.fst).Nodup) (hmiss : (get st k now).1 = none) :
    storeFind (get st k now).2 k = none := by
  unfold get at hmiss ⊢
  cases hf : storeFind st k with
  | none => simp [hf]
  | some it =>
    simp only [hf] at hmiss ⊢
    by_cases hexp : it.expire_at < now
    · rw [if_pos hexp]
      exact storeFind_erase_of_nodup st k hnd
    · rw [if_neg hexp] at hmiss
      simp at hmiss

end PixelPet.Weather

namespace PixelPet

/-- Claim C6: `geocode` caches only successes.  First conjunct: on a cache
miss with an empty result list or a transport error, `geocode` returns
`None`, performs the network call, leaves the cache exactly as the read
left it, and (for a store with distinct keys) stores nothing under the
city's key — so the next call goes to the network again.  Second
conjunct: on a cache miss with a successful geocode, the result is cached,
and a second `geocode` of the same city within the 7-day TTL is answered
from the cache with no network call and no cache change. -/
theorem c6_geocode_caches_only_success :
    (∀ (lang city : String) (st : Weather.Store Weather.GeoOut) (now : Int)
      (net : Weather.GeoNet),
      pyStripS city ≠ "" →
      (Weather.get st (Weather.geoKey lang city) now).1 = none →
      (net = .err ∨ net = .empty) →
      Weather.geocode lang city st now net =
        (none, (Weather.get st (Weather.geoKey lang city) now).2, true) ∧
      ((st.map Prod.fst).Nodup →
        Weather.storeFind (Weather.geocode lang city st now net).2.1
          (Weather.geoKey lang city) = none)) ∧
    (∀ (lang city : String) (st : Weather.Store Weather.GeoOut) (now : Int)
      (item : Weather.GeoItem) (tr : Int) (net2 : Weather.GeoNet),
      pyStripS city ≠ "" →
      (Weather.get st (Weather.geoKey lang city) now).1 = none →
      tr ≤ now + Weather.GEO_TTL →
      Weather.geocode lang city st now (.ok item) =
        (some (Weather.mkGeoOut (pyStripS city) item),
         Weather.set (Weather.get st (Weather.geoKey lang city) now).2
           (Weather.geoKey lang city) (Weather.mkGeoOut (pyStripS city) item)
           none Weather.GEO_TTL 256 now, true) ∧
      Weather.geocode lang city (Weather.geocode lang city st now (.ok item)).2.1 tr net2 =
        (some (Weather.mkGeoOut (pyStripS city) item),
         (Weather.geocode lang city st now (.ok item)).2.1, false)) := by
  constructor
  · intro lang city st now net hc hmiss hnet
    simp only [Weather.geoKey] at hmiss ⊢
    rcases hpair : Weather.get st ("geo:" ++ lang ++ ":" ++ pyStripS city) now with ⟨o, st1⟩
    have hm2 : (Weather.get st ("geo:" ++ lang ++ ":" ++ pyStripS city) now).1 = none := hmiss
    rw [hpair] at hmiss
    simp only at hmiss
    subst hmiss
    have hfirst : Weather.geocode lang city st now net = (none, st1, true) := by
      unfold Weather.geocode
      rw [if_neg hc]
      simp only [hpair]
      rcases hnet with rfl | rfl <;> rfl
    constructor
    · simp only [hfirst]
    · intro hnd
      rw [hfirst]
      have h3 := Weather.get_miss_find_none st ("geo:" ++ lang ++ ":" ++ pyStripS city) now hnd hm2
      rw [hpair] at h3
      exact h3
  · intro lang city st now item tr net2 hc hmiss htr
    simp only [Weather.geoKey] at hmiss ⊢
    rcases hpair : Weather.get st ("geo:" ++ lang ++ ":" ++ pyStripS city) now with ⟨o, st1⟩
    rw [hpair] at hmiss
    simp only at hmiss
    subst hmiss
    have hfirst : Weather.geocode lang city st now (.ok item) =
        (some (Weather.mkGeoOut (pyStripS city) item),
         Weather.set st1 ("geo:" ++ lang ++ ":" ++ pyStripS city)
           (Weather.mkGeoOut (pyStripS city) item) none Weather.GEO_TTL 256 now, true) := by
      unfold Weather.geocode
      rw [if_neg hc]
      simp only [hpair]
    constructor
    · simp only [hfirst]
    · simp only [hfirst]
      have hfind : Weather.storeFind
          (Weather.set st1 ("geo:" ++ lang ++ ":" ++ pyStripS city)
            (Weather.mkGeoOut (pyStripS city) item) none Weather.GEO_TTL 256 now)
          ("geo:" ++ lang ++ ":" ++ pyStripS city) =
          some ⟨Weather.mkGeoOut (pyStripS city) item, now + Weather.GEO_TTL⟩ := by
        unfold Weather.set
        exact Weather.storeFind_assign _ _ _
      have hget2 := Weather.get_hit
        (Weather.set st1 ("geo:" ++ lang ++ ":" ++ pyStripS city)
          (Weather.mkGeoOut (pyStripS city) item) none Weather.GEO_TTL 256 now)
        ("geo:" ++ lang ++ ":" ++ pyStripS city)
        ⟨Weather.mkGeoOut (pyStripS city) item, now + Weather.GEO_TTL⟩ tr hfind
        (by show ¬ (now + Weather.GEO_TTL < tr); omega)
      unfold Weather.geocode
      rw [if_neg hc]
      simp only [hget2]

/-- Witness for C6: a concrete success is served from the cache on the
second call. -/
theorem c6_geocode_caches_only_success_witness :
    Weather.geocode "zh" "北京"
        (Weather.geocode "zh" "北京" [] 0 (.ok ⟨"Beijing", "CN", 39, 116, "tz"⟩)).2.1
        604700 .err =
      (some (Weather.mkGeoOut "北京" ⟨"Beijing", "CN", 39, 116, "tz"⟩),
       (Weather.geocode "zh" "北京" [] 0 (.ok ⟨"Beijing", "CN", 39, 116, "tz"⟩)).2.1,
       false) := by
  have h := (c6_geocode_caches_only_success.2 "zh" "北京" [] 0
    ⟨"Beijing", "CN", 39, 116, "tz"⟩ 604700 .err (by decide) (by decide) (by decide)).2
  simpa using h

end PixelPet
